import Mathlib

/-!
Verification development for the camera auto-tracking routine of
src/exercises/project2/project2_ex1_fbx_tiktok.py.

The script drives the Blender Python API.  The core under study is
setup_camera_tracking (lines 199-253): for each sampled frame it advances the
host scene to the frame, reads the target world position, places the camera at
a fixed offset behind and above the target, aims it with the host math library
routine Vector.to_track_quat("-Z", "Y"), and inserts location and rotation
keyframes.

The embedding below models positions and matrices exactly over the rationals
(the Python floats 2.5 and 1.5 are exact binary floats, and every position
computation in the routine is a linear combination of host-provided values).
The host scripting surface (scene.frame_set, matrix_world, pose.bones,
keyframe_insert) is modelled as explicit state passing: a Target carries its
host-provided transforms as functions of the current frame, and the camera
carries its animation store.  The routine body contains no raise, so its
embedding into the error monad is the constant Except.ok of the pure result.
-/

namespace TikTok

/-- Constant FRAME_STEP = 5 (line 22 of the source): bake keyframes every N
frames. -/
def FRAME_STEP : Int := 5

/-- Constant CAMERA_DISTANCE = 2.5 (line 23): distance from target in meters.
The Python float 2.5 is exact. -/
def CAMERA_DISTANCE : ℚ := 5/2

/-- Constant CAMERA_HEIGHT_OFFSET = 1.5 (line 24): height above target center.
The Python float 1.5 is exact. -/
def CAMERA_HEIGHT_OFFSET : ℚ := 3/2

/-- World-space 3-vector of exact rational coordinates. -/
abbrev V3 : Type := ℚ × ℚ × ℚ

/-- Homogeneous 4x4 transform matrix, as carried by the host
(Object.matrix_world, PoseBone.matrix). -/
abbrev Mat4 : Type := Matrix (Fin 4) (Fin 4) ℚ

/-- Translation component of a 4x4 transform (the mathutils Matrix.translation
property: entries (0,3), (1,3), (2,3)). -/
def translationOf (m : Mat4) : V3 := (m 0 3, m 1 3, m 2 3)

/-- Host-side target object.  The world matrix and the pose-bone collection
are functions of the host scene current frame: scene.frame_set(frame) advances
the host playback state, and every matrix read afterwards reflects that frame.
Pose bones are an association list from bone name to the bone matrix
(armature.pose.bones, indexed by name). -/
structure Target where
  isArmature : Bool
  matrixWorld : Int → Mat4
  poseBones : Int → List (String × Mat4)

/-- Translation of get_target_world_location (lines 168-178): if the named
bone is in armature.pose.bones, return the translation of
armature.matrix_world @ bone.matrix; otherwise fall back to the translation of
armature.matrix_world (the armature origin). -/
def get_target_world_location (armature : Target) (frame : Int)
    (bone_name : String) : V3 :=
  match (armature.poseBones frame).lookup bone_name with
  | some boneMatrix => translationOf (armature.matrixWorld frame * boneMatrix)
  | none => translationOf (armature.matrixWorld frame)

/-- Camera object state.  The rotation_euler channel is recorded as the
direction vector handed to Vector.to_track_quat("-Z", "Y"); the host converts
that vector to a quaternion and then to Euler angles, both stages preserving
the rotation, and the rotation itself is modelled separately over the reals by
toTrackRotNZY below.  animKeys models camera.animation_data: none when the
camera has no animation data, otherwise the pair of the location keyframe list
and the rotation keyframe list in insertion order. -/
structure Camera where
  location : V3
  trackDir : V3
  animKeys : Option (List (Int × V3) × List (Int × V3))

/-- Location keyframes of a camera (empty when it has no animation data). -/
def locKeys (c : Camera) : List (Int × V3) := (c.animKeys.getD ([], [])).1

/-- Rotation keyframes of a camera (empty when it has no animation data). -/
def rotKeys (c : Camera) : List (Int × V3) := (c.animKeys.getD ([], [])).2

/-- Observable side effects of the bake loop on the host, in order. -/
inductive Ev where
  | frameSet (f : Int)
  | readTarget (f : Int)
  | keyInsertLoc (f : Int)
  | keyInsertRot (f : Int)
deriving DecidableEq, Repr

/-- Python range(start, stop, step) for a positive step: the arithmetic
progression start, start + step, ... strictly below stop. -/
def rangeStep (start stop step : Int) : List Int :=
  (List.range ((stop - start + step - 1).fdiv step).toNat).map
    (fun (i : Nat) => start + step * (i : Int))

/-- Frames sampled by the bake loop (line 216):
range(frame_start, frame_end + 1, FRAME_STEP). -/
def sampledFrames (frame_start frame_end : Int) : List Int :=
  rangeStep frame_start (frame_end + 1) FRAME_STEP

/-- Target location read in the loop body (lines 220-223): the bone lookup
when the target is an armature and bone_name is truthy (not None and not the
empty string), else the translation of the target world matrix. -/
def targetLocation (target : Target) (bone_name : Option String)
    (frame : Int) : V3 :=
  if target.isArmature = true ∧ bone_name.getD "" ≠ "" then
    get_target_world_location target frame (bone_name.getD "")
  else
    translationOf (target.matrixWorld frame)

/-- Camera position computed at lines 226-230: behind the target by
CAMERA_DISTANCE along world Y and above it by CAMERA_HEIGHT_OFFSET along
world Z. -/
def cameraLocationOf (target_loc : V3) : V3 :=
  (target_loc.1, target_loc.2.1 - CAMERA_DISTANCE,
   target_loc.2.2 + CAMERA_HEIGHT_OFFSET)

/-- Camera position formula with the two module constants generalized, for the
spec properties quantified over distance and height_offset. -/
def cameraLocationGen (distance height_offset : ℚ) (target_loc : V3) : V3 :=
  (target_loc.1, target_loc.2.1 - distance, target_loc.2.2 + height_offset)

/-- Look direction computed at lines 233-239: target_loc minus the camera
location, componentwise. -/
def lookDirectionOf (target_loc camera_loc : V3) : V3 :=
  (target_loc.1 - camera_loc.1, target_loc.2.1 - camera_loc.2.1,
   target_loc.2.2 - camera_loc.2.2)

/-- Host state threaded through the bake loop: the camera being keyframed, the
scene current frame, and the emitted side-effect trace. -/
structure HostState where
  cam : Camera
  sceneFrame : Int
  trace : List Ev

/-- Model of camera.keyframe_insert(data_path="location", frame=frame): append
the current camera location at the frame to the location channel, creating the
animation store when absent.  The loop visits strictly increasing frames, so
append coincides with Blender keyframe insertion. -/
def keyframeInsertLoc (cam : Camera) (frame : Int) : Camera :=
  let ks := cam.animKeys.getD ([], [])
  { cam with animKeys := some (ks.1 ++ [(frame, cam.location)], ks.2) }

/-- Model of camera.keyframe_insert(data_path="rotation_euler", frame=frame):
append the current rotation channel value at the frame. -/
def keyframeInsertRot (cam : Camera) (frame : Int) : Camera :=
  let ks := cam.animKeys.getD ([], [])
  { cam with animKeys := some (ks.1, ks.2 ++ [(frame, cam.trackDir)]) }

/-- Body of the bake loop (lines 216-248) for one sampled frame: advance the
scene to the frame, read the target location, set the camera location, compute
the look direction, record the tracking rotation, and insert the two
keyframes.  The unused local rot_quat at line 242 reads camera.rotation_euler
and has no effect, so it is dropped. -/
def bakeFrame (target : Target) (bone_name : Option String)
    (st : HostState) (frame : Int) : HostState :=
  let target_loc := targetLocation target bone_name frame
  let cam1 := { st.cam with location := cameraLocationOf target_loc }
  let direction := lookDirectionOf target_loc cam1.location
  let cam2 := { cam1 with trackDir := direction }
  let cam3 := keyframeInsertRot (keyframeInsertLoc cam2 frame) frame
  { cam := cam3, sceneFrame := frame,
    trace := st.trace ++ [Ev.frameSet frame, Ev.readTarget frame,
      Ev.keyInsertLoc frame, Ev.keyInsertRot frame] }

/-- Result of setup_camera_tracking: the final camera, the final scene frame,
the side-effect trace, and the keyframe count reported at lines 250-253,
namely (frame_end - frame_start) // FRAME_STEP + 1 with Python floor
division. -/
structure BakeResult where
  cam : Camera
  sceneFrame : Int
  trace : List Ev
  reported : Int

/-- Translation of setup_camera_tracking (lines 199-253): clear any existing
animation data on the camera, bake one keyframe pair per sampled frame, and
report the keyframe count. -/
def setup_camera_tracking (target : Target) (bone_name : Option String)
    (camera : Camera) (scene_frame : Int)
    (frame_start frame_end : Int) : BakeResult :=
  let camera := if camera.animKeys.isSome then { camera with animKeys := none }
    else camera
  let st0 : HostState := ⟨camera, scene_frame, []⟩
  let st := (sampledFrames frame_start frame_end).foldl
    (bakeFrame target bone_name) st0
  { cam := st.cam, sceneFrame := st.sceneFrame, trace := st.trace,
    reported := (frame_end - frame_start).fdiv FRAME_STEP + 1 }

/-- Error-monad view of setup_camera_tracking.  A Python routine signals
failure only by raising; setup_camera_tracking contains no raise and no
rejection branch, so its embedding is the constant Except.ok of the pure
result. -/
def setup_camera_tracking_run (target : Target) (bone_name : Option String)
    (camera : Camera) (scene_frame : Int)
    (frame_start frame_end : Int) : Except String BakeResult :=
  Except.ok (setup_camera_tracking target bone_name camera scene_frame
    frame_start frame_end)

/-- Concrete fixture: a non-armature target whose world matrix is the identity
at every frame (world translation (0,0,0)) and with no pose bones. -/
def demoTarget : Target :=
  { isArmature := false, matrixWorld := fun _ => 1, poseBones := fun _ => [] }

/-- Concrete fixture: a fresh camera at the origin with no animation data. -/
def demoCamera : Camera :=
  { location := (0, 0, 0), trackDir := (0, 0, 0), animKeys := none }

/-- Side effects emitted by one iteration of the bake loop, in source order:
advance the scene, read the target, insert the location keyframe, insert the
rotation keyframe. -/
def evChunk (f : Int) : List Ev :=
  [Ev.frameSet f, Ev.readTarget f, Ev.keyInsertLoc f, Ev.keyInsertRot f]

/-! Real-valued model of the host math library orientation routine.

The rotation recorded at line 243 of the source is computed by
mathutils.Vector.to_track_quat("-Z", "Y"), host-library code that is not part
of src/.  Modelled from the spec: the rotation that maps the camera local
forward axis (-Z) to the normalized direction vector, with the camera local up
axis (Y) corrected by a twist about the direction (near-vertical directions,
where the two horizontal components together stay below the 1e-4 guard, take a
snapped rotation axis).  The model follows the track-axis construction of the
host library (Blender vec_to_quat with track -Z, up Y): an axis-angle rotation
taking local Z onto the negated direction, then a twist about the direction
whose angle is half an arctangent of the rotated frame, and is expressed
directly by its action on vectors, which the quaternion and Euler stages of
the host both preserve. -/

/-- Real 3-vector, for the orientation model (host floats idealized as
reals). -/
abbrev V3R : Type := ℝ × ℝ × ℝ

/-- Cast of an exact rational vector to the real model. -/
def toR (v : V3) : V3R := ((v.1 : ℝ), (v.2.1 : ℝ), (v.2.2 : ℝ))

/-- Euclidean length of a real 3-vector. -/
noncomputable def normR (v : V3R) : ℝ :=
  Real.sqrt (v.1 ^ 2 + v.2.1 ^ 2 + v.2.2 ^ 2)

/-- Normalization of a real 3-vector (vector scaled by the inverse of its
length). -/
noncomputable def normalizeR (v : V3R) : V3R :=
  (v.1 / normR v, v.2.1 / normR v, v.2.2 / normR v)

/-- Dot product of real 3-vectors. -/
def dotR (u v : V3R) : ℝ := u.1 * v.1 + u.2.1 * v.2.1 + u.2.2 * v.2.2

/-- Rotation about the unit axis n by the angle with cosine c and sine s,
acting on v (the Rodrigues rotation formula, the matrix form of an axis-angle
quaternion). -/
def rodrigues (n : V3R) (c s : ℝ) (v : V3R) : V3R :=
  let d := n.1 * v.1 + n.2.1 * v.2.1 + n.2.2 * v.2.2
  (c * v.1 + s * (n.2.1 * v.2.2 - n.2.2 * v.2.1) + (1 - c) * d * n.1,
   c * v.2.1 + s * (n.2.2 * v.1 - n.1 * v.2.2) + (1 - c) * d * n.2.1,
   c * v.2.2 + s * (n.1 * v.2.1 - n.2.1 * v.1) + (1 - c) * d * n.2.2)

/-- Two-argument arctangent: the argument of the complex number x + y i. -/
noncomputable def atan2 (y x : ℝ) : ℝ := Complex.arg ⟨x, y⟩

/-- Componentwise negation of a real 3-vector: for the -Z track the host
negates the input vector before rotating local Z onto it. -/
def negV (v : V3R) : V3R := (-v.1, -v.2.1, -v.2.2)

/-- Rotation axis of the first tracking stage, before normalization: normal
to both world Z and the (negated) direction t, snapped when the first two
components of t together stay below the 1e-4 near-vertical guard. -/
noncomputable def trackAxisVec (t : V3R) : V3R :=
  if |t.1| + |t.2.1| < 1 / 10000 then (1, t.1, 0) else (-t.2.1, t.1, 0)

/-- First tracking stage: the axis-angle rotation about the normalized track
axis whose cosine is t.z / len, taking world Z onto the normalized t outside
the near-vertical guard band. -/
noncomputable def stageOne (t : V3R) (len : ℝ) : V3R → V3R :=
  rodrigues (normalizeR (trackAxisVec t)) (t.2.2 / len)
    (Real.sqrt (1 - (t.2.2 / len) ^ 2))

/-- Twist half-angle of the up correction for up axis Y: read the rotated Z
column fp off the first stage and take -(1/2) atan2(-fp.x, -fp.y). -/
noncomputable def twistAngle (t : V3R) (len : ℝ) : ℝ :=
  -(1 / 2) * atan2 (-(stageOne t len ((0:ℝ), (0:ℝ), (1:ℝ))).1)
    (-(stageOne t len ((0:ℝ), (0:ℝ), (1:ℝ))).2.1)

/-- Modelled from the spec: mathutils.Vector.to_track_quat("-Z", "Y") (host
math library, not in src/), the rotation aiming the local -Z axis along the
given vector with the local Y axis as up, returned as its action on real
3-vectors.  A zero input vector yields the identity.  For the -Z track the
host negates the vector; the first stage rotates local Z onto that negated
vector about an axis normal to it (snapped inside the 1e-4 near-vertical
guard band), and the second stage twists about the normalized negated
direction by twice the twist half-angle. -/
noncomputable def toTrackRotNZY (v : V3R) : V3R → V3R :=
  if normR v = 0 then id
  else fun w =>
    rodrigues (normalizeR (negV v))
      (Real.cos (2 * twistAngle (negV v) (normR v)))
      (Real.sin (2 * twistAngle (negV v) (normR v)))
      (stageOne (negV v) (normR v) w)

/-- Camera position formula of lines 226-230 over the reals, for the
continuity statement. -/
noncomputable def cameraLocationR (target_loc : V3R) : V3R :=
  (target_loc.1, target_loc.2.1 - ((CAMERA_DISTANCE : ℚ) : ℝ),
   target_loc.2.2 + ((CAMERA_HEIGHT_OFFSET : ℚ) : ℝ))

/-- Look direction of lines 233-239 over the reals: target position minus the
camera position just computed from it. -/
noncomputable def lookDirectionR (target_loc : V3R) : V3R :=
  (target_loc.1 - (cameraLocationR target_loc).1,
   target_loc.2.1 - (cameraLocationR target_loc).2.1,
   target_loc.2.2 - (cameraLocationR target_loc).2.2)

/-- Component of the world Y axis orthogonal to the normalized direction d:
the up direction closest to world Y among those compatible with looking
along d. -/
noncomputable def upBiasY (d : V3R) : V3R :=
  let n := normalizeR d
  let c := dotR (0, 1, 0) n
  (0 - c * n.1, 1 - c * n.2.1, 0 - c * n.2.2)

/-! Structural lemmas about the bake loop. -/

/-- Each loop iteration appends exactly one location keyframe, holding the
camera position computed from the target location at that frame. -/
lemma locKeys_bakeFrame (t : Target) (b : Option String) (st : HostState)
    (f : Int) :
    locKeys ((bakeFrame t b st f).cam)
      = locKeys st.cam ++ [(f, cameraLocationOf (targetLocation t b f))] := by
  simp [bakeFrame, keyframeInsertLoc, keyframeInsertRot, locKeys]

/-- Each loop iteration appends exactly one rotation keyframe, holding the
look direction from the freshly positioned camera to the target. -/
lemma rotKeys_bakeFrame (t : Target) (b : Option String) (st : HostState)
    (f : Int) :
    rotKeys ((bakeFrame t b st f).cam)
      = rotKeys st.cam
        ++ [(f, lookDirectionOf (targetLocation t b f)
              (cameraLocationOf (targetLocation t b f)))] := by
  simp [bakeFrame, keyframeInsertLoc, keyframeInsertRot, rotKeys]

/-- Each loop iteration appends its four side effects to the trace. -/
lemma trace_bakeFrame (t : Target) (b : Option String) (st : HostState)
    (f : Int) :
    (bakeFrame t b st f).trace = st.trace ++ evChunk f := by
  simp [bakeFrame, evChunk]

/-- Location keyframes produced by folding the bake loop over a frame list:
the previous keyframes followed by one camera-position key per frame, in
order. -/
lemma foldl_bakeFrame_locKeys (t : Target) (b : Option String) :
    ∀ (fr : List Int) (st : HostState),
      locKeys ((fr.foldl (bakeFrame t b) st).cam)
        = locKeys st.cam
          ++ fr.map (fun f => (f, cameraLocationOf (targetLocation t b f)))
  | [], st => by simp
  | f :: fr, st => by
      rw [List.foldl_cons, foldl_bakeFrame_locKeys t b fr,
        locKeys_bakeFrame, List.map_cons, List.append_assoc]
      rfl

/-- Rotation keyframes produced by folding the bake loop over a frame list. -/
lemma foldl_bakeFrame_rotKeys (t : Target) (b : Option String) :
    ∀ (fr : List Int) (st : HostState),
      rotKeys ((fr.foldl (bakeFrame t b) st).cam)
        = rotKeys st.cam
          ++ fr.map (fun f => (f, lookDirectionOf (targetLocation t b f)
              (cameraLocationOf (targetLocation t b f))))
  | [], st => by simp
  | f :: fr, st => by
      rw [List.foldl_cons, foldl_bakeFrame_rotKeys t b fr,
        rotKeys_bakeFrame, List.map_cons, List.append_assoc]
      rfl

/-- Trace produced by folding the bake loop: the four side effects of each
frame, for the frames in list order. -/
lemma foldl_bakeFrame_trace (t : Target) (b : Option String) :
    ∀ (fr : List Int) (st : HostState),
      (fr.foldl (bakeFrame t b) st).trace
        = st.trace ++ fr.flatMap evChunk
  | [], st => by simp
  | f :: fr, st => by
      rw [List.foldl_cons, foldl_bakeFrame_trace t b fr, trace_bakeFrame,
        List.flatMap_cons, List.append_assoc]

/-- Look direction actually fed to the tracking rotation: because the camera
is first placed at the fixed offset from the target, the direction is the
constant vector (0, CAMERA_DISTANCE, -CAMERA_HEIGHT_OFFSET), independent of
the target position. -/
lemma lookDirection_const (T : V3) :
    lookDirectionOf T (cameraLocationOf T)
      = (0, CAMERA_DISTANCE, -CAMERA_HEIGHT_OFFSET) := by
  simp [lookDirectionOf, cameraLocationOf]

/-! Lemmas about the sampled frame list. -/

/-- Length of the sampled frame list, as the truncation of the floor-division
count. -/
lemma sampledFrames_length (fs fe : Int) :
    (sampledFrames fs fe).length = ((fe - fs).fdiv 5 + 1).toNat := by
  simp only [sampledFrames, rangeStep, FRAME_STEP, List.length_map,
    List.length_range]
  have h5 : (0:Int) ≤ 5 := by norm_num
  rw [Int.fdiv_eq_ediv _ h5, Int.fdiv_eq_ediv _ h5]
  congr 1
  omega

/-- With a nonempty frame range the sampled count is floor((fe - fs)/5) + 1,
a positive number. -/
lemma sampledFrames_length_of_le (fs fe : Int) (h : fs ≤ fe) :
    ((sampledFrames fs fe).length : Int) = (fe - fs).fdiv 5 + 1 := by
  rw [sampledFrames_length]
  have h5 : (0:Int) ≤ 5 := by norm_num
  rw [Int.fdiv_eq_ediv _ h5]
  have : 0 ≤ (fe - fs) / 5 := Int.ediv_nonneg (by omega) (by norm_num)
  omega

/-- With an empty frame range (fe < fs) no frame is sampled. -/
lemma sampledFrames_eq_nil (fs fe : Int) (h : fe < fs) :
    sampledFrames fs fe = [] := by
  have hlen : (sampledFrames fs fe).length = 0 := by
    rw [sampledFrames_length]
    have h5 : (0:Int) ≤ 5 := by norm_num
    rw [Int.fdiv_eq_ediv _ h5]
    have : (fe - fs) / 5 ≤ -1 := by
      have hneg : fe - fs ≤ -1 := by omega
      calc (fe - fs) / 5 ≤ (-1 : Int) / 5 :=
            Int.ediv_le_ediv (by norm_num) hneg
        _ = -1 := by decide
    omega
  exact List.eq_nil_of_length_eq_zero hlen

/-- Sampled frames are strictly increasing. -/
lemma sampledFrames_pairwise (fs fe : Int) :
    (sampledFrames fs fe).Pairwise (· < ·) := by
  simp only [sampledFrames, rangeStep, FRAME_STEP]
  refine List.Pairwise.map _ (fun a b hab => ?_) (List.pairwise_lt_range _)
  omega

/-! Evaluation of the orientation model at the constant look direction
(0, 5/2, -3/2) that the bake loop feeds it at every sampled frame. -/

/-- Length of the constant look direction. -/
lemma normR_dirConst : normR ((0:ℝ), 5/2, -3/2) = Real.sqrt 34 / 2 := by
  have h2 : (Real.sqrt 34 / 2) ^ 2 = (17:ℝ)/2 := by
    rw [div_pow, Real.sq_sqrt (by norm_num : (0:ℝ) ≤ 34)]
    norm_num
  show Real.sqrt ((0:ℝ) ^ 2 + (5/2) ^ 2 + (-3/2) ^ 2) = Real.sqrt 34 / 2
  rw [show ((0:ℝ) ^ 2 + (5/2) ^ 2 + (-3/2) ^ 2) = ((17:ℝ)/2) by norm_num]
  rw [← h2, Real.sqrt_sq (by positivity)]

/-- Positivity of the square root of 34, used throughout the evaluation. -/
lemma sqrt34_pos : (0:ℝ) < Real.sqrt 34 := Real.sqrt_pos.mpr (by norm_num)

/-- First-stage rotation at the constant direction: rotation about the world X
axis with cosine 3 / sqrt 34 and sine 5 / sqrt 34. -/
lemma stageOne_eval :
    stageOne (negV ((0:ℝ), 5/2, -3/2)) (normR ((0:ℝ), 5/2, -3/2))
      = rodrigues ((1:ℝ), 0, 0) (3 / Real.sqrt 34) (5 / Real.sqrt 34) := by
  have h34 := sqrt34_pos
  have hcond : ¬(|(-(0:ℝ))| + |(-(5/2:ℝ))| < 1/10000) := by
    rw [abs_neg, abs_neg, abs_zero, abs_of_nonneg (by norm_num : (0:ℝ) ≤ 5/2)]
    norm_num
  have hA : normalizeR (trackAxisVec (negV ((0:ℝ), 5/2, -3/2)))
      = ((1:ℝ), 0, 0) := by
    unfold trackAxisVec negV
    dsimp only
    rw [if_neg hcond]
    unfold normalizeR normR
    dsimp only
    rw [show ((-(-(5/2:ℝ))) ^ 2 + (-(0:ℝ)) ^ 2 + (0:ℝ) ^ 2) = (5/2:ℝ) ^ 2
      by norm_num]
    rw [Real.sqrt_sq (by norm_num : (0:ℝ) ≤ 5/2)]
    norm_num
  have hc : (negV ((0:ℝ), 5/2, -3/2)).2.2 / normR ((0:ℝ), 5/2, -3/2)
      = 3 / Real.sqrt 34 := by
    show (-(-3/2 : ℝ)) / normR ((0:ℝ), 5/2, -3/2) = 3 / Real.sqrt 34
    rw [normR_dirConst, div_eq_div_iff (by positivity) (by positivity)]
    ring
  have hs : Real.sqrt (1 - ((negV ((0:ℝ), 5/2, -3/2)).2.2
      / normR ((0:ℝ), 5/2, -3/2)) ^ 2) = 5 / Real.sqrt 34 := by
    rw [hc, div_pow, Real.sq_sqrt (by norm_num : (0:ℝ) ≤ 34)]
    rw [show (1 : ℝ) - 3 ^ 2 / 34 = 25 / 34 by norm_num]
    rw [Real.sqrt_div (by norm_num : (0:ℝ) ≤ 25) 34]
    rw [show (25:ℝ) = 5 ^ 2 by norm_num, Real.sqrt_sq (by norm_num)]
  unfold stageOne
  rw [hA, hs, hc]

/-- Auxiliary: a rotation by angle zero is the identity. -/
lemma rodrigues_cos_one (n x : V3R) : rodrigues n 1 0 x = x := by
  unfold rodrigues
  dsimp only
  refine Prod.ext ?_ (Prod.ext ?_ ?_) <;> dsimp only <;> ring

/-- The up-correction twist vanishes at the constant direction: the rotated Z
column has no X component, so the arctangent is taken at zero over a positive
number. -/
lemma twistAngle_eval :
    twistAngle (negV ((0:ℝ), 5/2, -3/2)) (normR ((0:ℝ), 5/2, -3/2)) = 0 := by
  have h34 := sqrt34_pos
  unfold twistAngle
  rw [stageOne_eval]
  have hfp : rodrigues ((1:ℝ), 0, 0) (3 / Real.sqrt 34) (5 / Real.sqrt 34)
      ((0:ℝ), (0:ℝ), (1:ℝ))
      = ((0:ℝ), -(5 / Real.sqrt 34), 3 / Real.sqrt 34) := by
    unfold rodrigues
    dsimp only
    refine Prod.ext ?_ (Prod.ext ?_ ?_) <;> dsimp only <;> ring
  rw [hfp]
  have harg : atan2 (-(0:ℝ)) (-(-(5 / Real.sqrt 34))) = 0 := by
    unfold atan2
    have hmk : (⟨-(-(5 / Real.sqrt 34)), -(0:ℝ)⟩ : ℂ)
        = ((5 / Real.sqrt 34 : ℝ) : ℂ) := by
      apply Complex.ext <;> simp
    rw [hmk]
    exact Complex.arg_ofReal_of_nonneg (by positivity)
  dsimp only
  rw [harg]
  norm_num

/-- Full evaluation of the orientation model at the constant look direction:
the twist is zero, so the rotation is the single axis-angle stage about
world X. -/
lemma toTrackRotNZY_eval (w : V3R) :
    toTrackRotNZY ((0:ℝ), 5/2, -3/2) w
      = rodrigues ((1:ℝ), 0, 0) (3 / Real.sqrt 34) (5 / Real.sqrt 34) w := by
  have h34 := sqrt34_pos
  have hne : ¬(normR ((0:ℝ), 5/2, -3/2) = 0) := by
    rw [normR_dirConst]
    exact ne_of_gt (by positivity)
  unfold toTrackRotNZY
  rw [if_neg hne]
  rw [twistAngle_eval, mul_zero, Real.cos_zero, Real.sin_zero,
    rodrigues_cos_one, stageOne_eval]

/-- Normalization of the constant look direction. -/
lemma normalizeR_dirConst :
    normalizeR ((0:ℝ), 5/2, -3/2)
      = ((0:ℝ), 5 / Real.sqrt 34, -3 / Real.sqrt 34) := by
  have h34 := sqrt34_pos
  unfold normalizeR
  dsimp only
  rw [normR_dirConst]
  refine Prod.ext ?_ (Prod.ext ?_ ?_) <;> dsimp only
  · simp
  · rw [div_eq_div_iff (by positivity) (by positivity)]
    ring
  · rw [div_eq_div_iff (by positivity) (by positivity)]
    ring

/-- The model maps the camera local forward axis (0,0,-1) onto the normalized
constant look direction. -/
lemma toTrackRotNZY_forward :
    toTrackRotNZY ((0:ℝ), 5/2, -3/2) ((0:ℝ), (0:ℝ), (-1:ℝ))
      = normalizeR ((0:ℝ), 5/2, -3/2) := by
  rw [toTrackRotNZY_eval, normalizeR_dirConst]
  unfold rodrigues
  dsimp only
  refine Prod.ext ?_ (Prod.ext ?_ ?_) <;> dsimp only <;> ring

/-- The model maps the camera local up axis (0,1,0) to the vector
(0, 3/sqrt 34, 5/sqrt 34). -/
lemma toTrackRotNZY_up :
    toTrackRotNZY ((0:ℝ), 5/2, -3/2) ((0:ℝ), (1:ℝ), (0:ℝ))
      = ((0:ℝ), 3 / Real.sqrt 34, 5 / Real.sqrt 34) := by
  rw [toTrackRotNZY_eval]
  unfold rodrigues
  dsimp only
  refine Prod.ext ?_ (Prod.ext ?_ ?_) <;> dsimp only <;> ring

/-- The normalized component of world Y orthogonal to the constant look
direction is exactly the image of the camera local up axis. -/
lemma upBiasY_dirConst :
    normalizeR (upBiasY ((0:ℝ), 5/2, -3/2))
      = ((0:ℝ), 3 / Real.sqrt 34, 5 / Real.sqrt 34) := by
  have h34 := sqrt34_pos
  have h342 : Real.sqrt 34 ^ 2 = 34 := Real.sq_sqrt (by norm_num)
  have hn : upBiasY ((0:ℝ), 5/2, -3/2) = ((0:ℝ), 9/34, 15/34) := by
    unfold upBiasY
    rw [normalizeR_dirConst]
    unfold dotR
    dsimp only
    refine Prod.ext ?_ (Prod.ext ?_ ?_) <;> dsimp only
    · ring
    · rw [show ((0:ℝ) * 0 + 1 * (5 / Real.sqrt 34) + 0 * (-3 / Real.sqrt 34))
        = 5 / Real.sqrt 34 by ring]
      rw [div_mul_div_comm, Real.mul_self_sqrt (by norm_num : (0:ℝ) ≤ 34)]
      norm_num
    · rw [show ((0:ℝ) * 0 + 1 * (5 / Real.sqrt 34) + 0 * (-3 / Real.sqrt 34))
        = 5 / Real.sqrt 34 by ring]
      rw [show (5 / Real.sqrt 34) * (-3 / Real.sqrt 34)
        = (5 * -3) / (Real.sqrt 34 * Real.sqrt 34) by ring]
      rw [Real.mul_self_sqrt (by norm_num : (0:ℝ) ≤ 34)]
      norm_num
  have h9 : (3 / Real.sqrt 34) ^ 2 = (9:ℝ)/34 := by
    rw [div_pow, h342]
    norm_num
  rw [hn]
  unfold normalizeR normR
  dsimp only
  rw [show ((0:ℝ) ^ 2 + (9/34) ^ 2 + (15/34) ^ 2) = (3 / Real.sqrt 34) ^ 2 by
    rw [h9]; norm_num]
  rw [Real.sqrt_sq (by positivity)]
  refine Prod.ext ?_ (Prod.ext ?_ ?_) <;> dsimp only
  · simp
  · rw [div_div_eq_mul_div, div_eq_div_iff (by positivity) (by positivity),
      mul_assoc, Real.mul_self_sqrt (by norm_num : (0:ℝ) ≤ 34)]
    norm_num
  · rw [div_div_eq_mul_div, div_eq_div_iff (by positivity) (by positivity),
      mul_assoc, Real.mul_self_sqrt (by norm_num : (0:ℝ) ≤ 34)]
    norm_num

/-! Facts connecting setup_camera_tracking to the loop lemmas. -/

/-- Clearing the animation data (lines 209-211) leaves no location
keyframe, whether or not the camera had animation data. -/
lemma clear_locKeys (c : Camera) :
    locKeys (if c.animKeys.isSome then { c with animKeys := none } else c)
      = [] := by
  cases h : c.animKeys <;> simp [locKeys, h]

/-- Clearing the animation data leaves no rotation keyframe. -/
lemma clear_rotKeys (c : Camera) :
    rotKeys (if c.animKeys.isSome then { c with animKeys := none } else c)
      = [] := by
  cases h : c.animKeys <;> simp [rotKeys, h]

/-- Location keyframes after a full run: exactly one key per sampled frame,
holding the camera position computed from the target position there. -/
lemma setup_locKeys (t : Target) (b : Option String) (cam : Camera)
    (sc fs fe : Int) :
    locKeys ((setup_camera_tracking t b cam sc fs fe).cam)
      = (sampledFrames fs fe).map
          (fun f => (f, cameraLocationOf (targetLocation t b f))) := by
  unfold setup_camera_tracking
  dsimp only
  rw [foldl_bakeFrame_locKeys]
  rw [clear_locKeys cam, List.nil_append]

/-- Rotation keyframes after a full run: exactly one key per sampled frame,
holding the look direction computed there. -/
lemma setup_rotKeys (t : Target) (b : Option String) (cam : Camera)
    (sc fs fe : Int) :
    rotKeys ((setup_camera_tracking t b cam sc fs fe).cam)
      = (sampledFrames fs fe).map
          (fun f => (f, lookDirectionOf (targetLocation t b f)
            (cameraLocationOf (targetLocation t b f)))) := by
  unfold setup_camera_tracking
  dsimp only
  rw [foldl_bakeFrame_rotKeys]
  rw [clear_rotKeys cam, List.nil_append]

/-- Side-effect trace of a full run: the four per-frame effects, frame by
frame. -/
lemma setup_trace (t : Target) (b : Option String) (cam : Camera)
    (sc fs fe : Int) :
    (setup_camera_tracking t b cam sc fs fe).trace
      = (sampledFrames fs fe).flatMap evChunk := by
  unfold setup_camera_tracking
  dsimp only
  rw [foldl_bakeFrame_trace]
  dsimp only
  rw [List.nil_append]

/-- Reported keyframe count of a full run. -/
lemma setup_reported (t : Target) (b : Option String) (cam : Camera)
    (sc fs fe : Int) :
    (setup_camera_tracking t b cam sc fs fe).reported
      = (fe - fs).fdiv FRAME_STEP + 1 := rfl

/-- In a per-frame flattening of the four bake side effects, every read of
the target at frame f is immediately preceded by the scene being set to
frame f. -/
lemma flatMap_evChunk_read_preceded :
    ∀ (fr : List Int) (i : Nat) (f : Int),
      (fr.flatMap evChunk)[i]? = some (Ev.readTarget f) →
      i ≠ 0 ∧ (fr.flatMap evChunk)[i - 1]? = some (Ev.frameSet f)
  | [], i, f => by simp
  | g :: fr, 0, f => by simp [evChunk]
  | g :: fr, 1, f => by
      intro h
      simp [evChunk] at h
      subst h
      simp [evChunk]
  | g :: fr, 2, f => by simp [evChunk]
  | g :: fr, 3, f => by simp [evChunk]
  | g :: fr, (n+4), f => by
      intro h
      have hrest : (fr.flatMap evChunk)[n]? = some (Ev.readTarget f) := by
        simpa [evChunk] using h
      obtain ⟨hn0, hprev⟩ := flatMap_evChunk_read_preceded fr n f hrest
      refine ⟨by omega, ?_⟩
      have hidx : n + 4 - 1 = (n - 1) + 4 := by omega
      rw [hidx]
      simpa [evChunk] using hprev

/-! Claim theorems. -/

/-- C1: for every target world position (x, y, z) read at a sampled frame,
the camera position keyframed by setup_camera_tracking is
(x, y - CAMERA_DISTANCE, z + CAMERA_HEIGHT_OFFSET); in particular the target
position (0,0,0) with distance 5/2 and height offset 3/2 gives camera
position (0, -5/2, 3/2). -/
theorem camera_position_formula (target : Target) (bone_name : Option String)
    (camera : Camera) (scene_frame frame_start frame_end : Int) (k : Int × V3)
    (hk : k ∈ locKeys ((setup_camera_tracking target bone_name camera
      scene_frame frame_start frame_end).cam)) :
    k.2 = ((targetLocation target bone_name k.1).1,
           (targetLocation target bone_name k.1).2.1 - CAMERA_DISTANCE,
           (targetLocation target bone_name k.1).2.2 + CAMERA_HEIGHT_OFFSET)
      ∧ cameraLocationOf ((0:ℚ), 0, 0) = ((0:ℚ), -(5/2), 3/2) := by
  refine ⟨?_, by norm_num [cameraLocationOf, CAMERA_DISTANCE,
    CAMERA_HEIGHT_OFFSET]⟩
  rw [setup_locKeys] at hk
  obtain ⟨f, hf, rfl⟩ := List.mem_map.mp hk
  rfl

/-- Witness for C1: a concrete one-frame run of the tracker. -/
theorem camera_position_formula_witness :
    ((1:Int), ((0:ℚ), -(5/2), 3/2)) ∈ locKeys ((setup_camera_tracking
        demoTarget none demoCamera 0 1 1).cam)
      ∧ (((1:Int), ((0:ℚ), -(5/2), 3/2)).2
          = ((targetLocation demoTarget none ((1:Int), ((0:ℚ), -(5/2), 3/2)).1).1,
             (targetLocation demoTarget none ((1:Int), ((0:ℚ), -(5/2), 3/2)).1).2.1
               - CAMERA_DISTANCE,
             (targetLocation demoTarget none ((1:Int), ((0:ℚ), -(5/2), 3/2)).1).2.2
               + CAMERA_HEIGHT_OFFSET)
        ∧ cameraLocationOf ((0:ℚ), 0, 0) = ((0:ℚ), -(5/2), 3/2)) :=
  have hmem : ((1:Int), ((0:ℚ), -(5/2), 3/2)) ∈ locKeys
      ((setup_camera_tracking demoTarget none demoCamera 0 1 1).cam) := by
    rw [setup_locKeys, show sampledFrames 1 1 = [1] from by decide]
    norm_num +decide [targetLocation, demoTarget, translationOf,
      cameraLocationOf, CAMERA_DISTANCE, CAMERA_HEIGHT_OFFSET,
      Matrix.one_apply]
  ⟨hmem, camera_position_formula demoTarget none demoCamera 0 1 1 _ hmem⟩

/-- C2: at every sampled frame the recorded orientation maps the camera local
forward axis (0,0,-1) onto the normalized look direction from the camera to
the target, and maps the camera local up axis (0,1,0) onto the normalized
component of world Y orthogonal to the look direction, the up direction
biased toward the fixed world Y axis. -/
theorem tracked_orientation_forward_and_up (target : Target)
    (bone_name : Option String) (camera : Camera)
    (scene_frame frame_start frame_end : Int) (k : Int × V3)
    (hk : k ∈ rotKeys ((setup_camera_tracking target bone_name camera
      scene_frame frame_start frame_end).cam)) :
    toTrackRotNZY (toR k.2) ((0:ℝ), (0:ℝ), (-1:ℝ)) = normalizeR (toR k.2)
      ∧ toTrackRotNZY (toR k.2) ((0:ℝ), (1:ℝ), (0:ℝ))
          = normalizeR (upBiasY (toR k.2)) := by
  rw [setup_rotKeys] at hk
  obtain ⟨f, hf, rfl⟩ := List.mem_map.mp hk
  have hdir : toR (f, lookDirectionOf (targetLocation target bone_name f)
        (cameraLocationOf (targetLocation target bone_name f))).2
      = ((0:ℝ), 5/2, -3/2) := by
    dsimp only
    rw [lookDirection_const]
    unfold toR CAMERA_DISTANCE CAMERA_HEIGHT_OFFSET
    dsimp only
    norm_num
  rw [hdir]
  exact ⟨toTrackRotNZY_forward, by rw [toTrackRotNZY_up, upBiasY_dirConst]⟩

/-- Witness for C2: the rotation key of a concrete one-frame run. -/
theorem tracked_orientation_forward_and_up_witness :
    ((1:Int), ((0:ℚ), 5/2, -(3/2))) ∈ rotKeys ((setup_camera_tracking
        demoTarget none demoCamera 0 1 1).cam)
      ∧ (toTrackRotNZY (toR ((1:Int), ((0:ℚ), 5/2, -(3/2))).2)
            ((0:ℝ), (0:ℝ), (-1:ℝ))
          = normalizeR (toR ((1:Int), ((0:ℚ), 5/2, -(3/2))).2)
        ∧ toTrackRotNZY (toR ((1:Int), ((0:ℚ), 5/2, -(3/2))).2)
            ((0:ℝ), (1:ℝ), (0:ℝ))
          = normalizeR (upBiasY (toR ((1:Int), ((0:ℚ), 5/2, -(3/2))).2))) :=
  have hmem : ((1:Int), ((0:ℚ), 5/2, -(3/2))) ∈ rotKeys
      ((setup_camera_tracking demoTarget none demoCamera 0 1 1).cam) := by
    rw [setup_rotKeys, show sampledFrames 1 1 = [1] from by decide]
    norm_num +decide [targetLocation, demoTarget, translationOf,
      lookDirectionOf, cameraLocationOf, CAMERA_DISTANCE,
      CAMERA_HEIGHT_OFFSET, Matrix.one_apply]
  ⟨hmem, tracked_orientation_forward_and_up demoTarget none demoCamera
    0 1 1 _ hmem⟩

/-- C3: for frame_start ≤ frame_end the bake produces exactly
floor((frame_end - frame_start)/FRAME_STEP) + 1 keyframe pairs, which is also
the count it reports; for the range [1, 250] this is 50. -/
theorem baked_keyframe_count :
    (∀ (target : Target) (bone_name : Option String) (camera : Camera)
        (scene_frame frame_start frame_end : Int),
      frame_start ≤ frame_end →
      ((locKeys ((setup_camera_tracking target bone_name camera scene_frame
          frame_start frame_end).cam)).length : Int)
          = (frame_end - frame_start).fdiv FRAME_STEP + 1
        ∧ ((rotKeys ((setup_camera_tracking target bone_name camera scene_frame
            frame_start frame_end).cam)).length : Int)
          = (frame_end - frame_start).fdiv FRAME_STEP + 1
        ∧ (setup_camera_tracking target bone_name camera scene_frame
            frame_start frame_end).reported
          = (frame_end - frame_start).fdiv FRAME_STEP + 1)
    ∧ ∀ (target : Target) (bone_name : Option String) (camera : Camera)
        (scene_frame : Int),
        (locKeys ((setup_camera_tracking target bone_name camera scene_frame
          1 250).cam)).length = 50 := by
  constructor
  · intro t b cam sc fs fe h
    refine ⟨?_, ?_, setup_reported t b cam sc fs fe⟩
    · rw [setup_locKeys, List.length_map, sampledFrames_length_of_le fs fe h]
      rfl
    · rw [setup_rotKeys, List.length_map, sampledFrames_length_of_le fs fe h]
      rfl
  · intro t b cam sc
    rw [setup_locKeys, List.length_map, sampledFrames_length]
    decide

/-- Witness for C3: the keyframe count of a concrete run over [1, 6]. -/
theorem baked_keyframe_count_witness :
    (1:Int) ≤ 6
      ∧ (((locKeys ((setup_camera_tracking demoTarget none demoCamera 0
            1 6).cam)).length : Int) = ((6:Int) - 1).fdiv FRAME_STEP + 1
        ∧ ((rotKeys ((setup_camera_tracking demoTarget none demoCamera 0
            1 6).cam)).length : Int) = ((6:Int) - 1).fdiv FRAME_STEP + 1
        ∧ (setup_camera_tracking demoTarget none demoCamera 0 1 6).reported
          = ((6:Int) - 1).fdiv FRAME_STEP + 1) :=
  ⟨by decide, baked_keyframe_count.1 demoTarget none demoCamera 0 1 6
    (by decide)⟩

/-- C4: for frame_end < frame_start the routine raises no error and inserts
no keyframe: the run returns ok, both keyframe channels stay empty, and no
side effect is emitted. -/
theorem empty_range_no_error_no_keyframes (target : Target)
    (bone_name : Option String) (camera : Camera) (scene_frame : Int)
    (frame_start frame_end : Int) (h : frame_end < frame_start) :
    setup_camera_tracking_run target bone_name camera scene_frame frame_start
        frame_end
      = Except.ok (setup_camera_tracking target bone_name camera scene_frame
          frame_start frame_end)
    ∧ locKeys ((setup_camera_tracking target bone_name camera scene_frame
        frame_start frame_end).cam) = []
    ∧ rotKeys ((setup_camera_tracking target bone_name camera scene_frame
        frame_start frame_end).cam) = []
    ∧ (setup_camera_tracking target bone_name camera scene_frame frame_start
        frame_end).trace = [] := by
  refine ⟨rfl, ?_, ?_, ?_⟩
  · rw [setup_locKeys, sampledFrames_eq_nil _ _ h]
    rfl
  · rw [setup_rotKeys, sampledFrames_eq_nil _ _ h]
    rfl
  · rw [setup_trace, sampledFrames_eq_nil _ _ h]
    rfl

/-- Witness for C4: the empty range with start 3 and end 1. -/
theorem empty_range_no_error_no_keyframes_witness :
    (1:Int) < 3
      ∧ (setup_camera_tracking_run demoTarget none demoCamera 0 3 1
          = Except.ok (setup_camera_tracking demoTarget none demoCamera 0 3 1)
        ∧ locKeys ((setup_camera_tracking demoTarget none demoCamera 0 3
            1).cam) = []
        ∧ rotKeys ((setup_camera_tracking demoTarget none demoCamera 0 3
            1).cam) = []
        ∧ (setup_camera_tracking demoTarget none demoCamera 0 3 1).trace
          = []) :=
  ⟨by decide, empty_range_no_error_no_keyframes demoTarget none demoCamera 0
    3 1 (by decide)⟩

/-- C5 counterexample: at the invalid frame range with start 10 and end 0 the
routine does not reject and does not fail: the run returns ok, baking zero
keyframes, so no validation of the frame range exists. -/
theorem no_validation_counterexample :
    (setup_camera_tracking_run demoTarget none demoCamera 0 10 0).isOk = true
      ∧ locKeys ((setup_camera_tracking demoTarget none demoCamera 0 10
          0).cam) = [] := by
  decide

/-- C5 amended: the routine performs no validation of the frame range: every
frame range, invalid ones included, is accepted and the run succeeds (ranges
with end before start simply bake zero keyframes, per the empty-range
theorem). -/
theorem no_range_validation (target : Target) (bone_name : Option String)
    (camera : Camera) (scene_frame frame_start frame_end : Int) :
    (setup_camera_tracking_run target bone_name camera scene_frame frame_start
      frame_end).isOk = true := rfl

/-- C6: when the named bone is not resolvable among the pose bones of the
armature, get_target_world_location falls back to the translation of the
armature world matrix (its origin), and the tracking run still completes. -/
theorem missing_bone_falls_back (target : Target) (frame : Int)
    (bone_name : String)
    (h : (target.poseBones frame).lookup bone_name = none) :
    get_target_world_location target frame bone_name
        = translationOf (target.matrixWorld frame)
    ∧ ∀ (camera : Camera) (scene_frame frame_start frame_end : Int),
        (setup_camera_tracking_run target (some bone_name) camera scene_frame
          frame_start frame_end).isOk = true := by
  constructor
  · unfold get_target_world_location
    rw [h]
  · intro camera sc fs fe
    rfl

/-- Witness for C6: an armature with no pose bones at all. -/
theorem missing_bone_falls_back_witness :
    (demoTarget.poseBones 1).lookup "mixamorig:Hips" = none
      ∧ (get_target_world_location demoTarget 1 "mixamorig:Hips"
          = translationOf (demoTarget.matrixWorld 1)
        ∧ ∀ (camera : Camera) (scene_frame frame_start frame_end : Int),
            (setup_camera_tracking_run demoTarget (some "mixamorig:Hips")
              camera scene_frame frame_start frame_end).isOk = true) :=
  ⟨rfl, missing_bone_falls_back demoTarget 1 "mixamorig:Hips" rfl⟩

/-- C7: for every target position and every positive distance the look
direction from the computed camera position to the target is never the zero
vector, and the camera position used by the run is the generalized formula at
the module constants. -/
theorem look_direction_nonzero (T : V3) (distance height_offset : ℚ)
    (hd : 0 < distance) :
    lookDirectionOf T (cameraLocationGen distance height_offset T)
        ≠ ((0:ℚ), 0, 0)
    ∧ cameraLocationOf T
        = cameraLocationGen CAMERA_DISTANCE CAMERA_HEIGHT_OFFSET T := by
  refine ⟨?_, rfl⟩
  intro hz
  unfold lookDirectionOf cameraLocationGen at hz
  dsimp only at hz
  rw [Prod.mk.injEq, Prod.mk.injEq] at hz
  obtain ⟨-, h2, -⟩ := hz
  have hzero : distance = 0 := by linarith
  exact absurd hzero (ne_of_gt hd)

/-- Witness for C7: the origin target with the module constants. -/
theorem look_direction_nonzero_witness :
    (0:ℚ) < 5/2
      ∧ (lookDirectionOf ((0:ℚ), 0, 0) (cameraLocationGen (5/2) (3/2)
            ((0:ℚ), 0, 0)) ≠ ((0:ℚ), 0, 0)
        ∧ cameraLocationOf ((0:ℚ), 0, 0)
          = cameraLocationGen CAMERA_DISTANCE CAMERA_HEIGHT_OFFSET
              ((0:ℚ), 0, 0)) :=
  ⟨by norm_num, look_direction_nonzero ((0:ℚ), 0, 0) (5/2) (3/2)
    (by norm_num)⟩

/-- C8: the sampled frames are processed in strictly increasing order, and in
the side-effect trace every read of the target at a frame is immediately
preceded by the scene frame being set to that frame. -/
theorem frames_processed_in_order :
    (∀ frame_start frame_end : Int,
      (sampledFrames frame_start frame_end).Pairwise (· < ·))
    ∧ ∀ (target : Target) (bone_name : Option String) (camera : Camera)
        (scene_frame frame_start frame_end : Int) (i : Nat) (f : Int),
        ((setup_camera_tracking target bone_name camera scene_frame
          frame_start frame_end).trace)[i]? = some (Ev.readTarget f) →
        i ≠ 0 ∧ ((setup_camera_tracking target bone_name camera scene_frame
          frame_start frame_end).trace)[i - 1]? = some (Ev.frameSet f) := by
  refine ⟨sampledFrames_pairwise, ?_⟩
  intro t b cam sc fs fe i f h
  rw [setup_trace] at h ⊢
  exact flatMap_evChunk_read_preceded _ i f h

/-- Witness for C8: the read event of a concrete one-frame run. -/
theorem frames_processed_in_order_witness :
    ((setup_camera_tracking demoTarget none demoCamera 0 1 1).trace)[1]?
        = some (Ev.readTarget 1)
      ∧ ((1:Nat) ≠ 0
        ∧ ((setup_camera_tracking demoTarget none demoCamera 0 1
            1).trace)[1 - 1]? = some (Ev.frameSet 1)) :=
  ⟨by decide, frames_processed_in_order.2 demoTarget none demoCamera 0 1 1 1 1
    (by decide)⟩

/-- C9: the orientation computed by the tracker is a continuous function of
the target position; in this routine the look direction handed to the
orientation model is the same constant for every target position, so the
orientation function is constant, hence continuous with no flips anywhere. -/
theorem orientation_continuous_in_target :
    (∀ T U : V3R, toTrackRotNZY (lookDirectionR T)
        = toTrackRotNZY (lookDirectionR U))
    ∧ Continuous fun T : V3R => toTrackRotNZY (lookDirectionR T) := by
  have hconst : ∀ T : V3R, lookDirectionR T = ((0:ℝ), 5/2, -3/2) := by
    intro T
    unfold lookDirectionR cameraLocationR CAMERA_DISTANCE CAMERA_HEIGHT_OFFSET
    dsimp only
    refine Prod.ext ?_ (Prod.ext ?_ ?_) <;> dsimp only <;> push_cast <;> ring
  refine ⟨fun T U => by rw [hconst T, hconst U], ?_⟩
  have hfun : (fun T : V3R => toTrackRotNZY (lookDirectionR T))
      = fun _ : V3R => toTrackRotNZY ((0:ℝ), 5/2, -3/2) :=
    funext fun T => by rw [hconst T]
  rw [hfun]
  exact continuous_const

/-- C10: after any call, the camera keyframes on both channels are exactly
one key per sampled frame in order, whatever animation data the camera had
before the call: no earlier keyframe survives. -/
theorem keyframes_exactly_sampled (target : Target) (bone_name : Option String)
    (camera : Camera) (scene_frame frame_start frame_end : Int) :
    (locKeys ((setup_camera_tracking target bone_name camera scene_frame
        frame_start frame_end).cam)).map Prod.fst
      = sampledFrames frame_start frame_end
    ∧ (rotKeys ((setup_camera_tracking target bone_name camera scene_frame
        frame_start frame_end).cam)).map Prod.fst
      = sampledFrames frame_start frame_end := by
  constructor
  · rw [setup_locKeys, List.map_map,
      show (Prod.fst ∘ fun f : Int =>
        (f, cameraLocationOf (targetLocation target bone_name f))) = id
        from rfl,
      List.map_id]
  · rw [setup_rotKeys, List.map_map,
      show (Prod.fst ∘ fun f : Int =>
        (f, lookDirectionOf (targetLocation target bone_name f)
          (cameraLocationOf (targetLocation target bone_name f)))) = id
        from rfl,
      List.map_id]

end TikTok
